import Mathlib

/-!
Shallow embedding of the Smartflex-GMS trainers router
(`backend-gym-api/app/routers/trainers.py`) and proofs about its
authorization, ownership and upsert behaviour.

Each FastAPI handler becomes a pure Lean function from the caller
context, its path/body arguments and an explicit database state to
`Except ApiError (result × state)`.  An `Except.error` models a raised
`HTTPException` before any commit (so the caller keeps the old state,
matching SQLAlchemy rollback semantics).  Python `.first()` becomes
`List.find?`, in-place mutation of a fetched ORM row becomes
`replaceFirst`, `db.delete` becomes `List.eraseP`, and autoincrement
primary keys are modelled with explicit per-table counters.
-/

namespace Gym

/-- Error taxonomy of the router: 401, 403, 404, 400 (`InvalidState`),
and an opaque internal failure (a Python exception such as
`from_orm(None)` during response assembly). -/
inductive ApiError where
  | unauthenticated
  | forbidden
  | notFound
  | badRequest
  | internal
deriving DecidableEq, Repr

/-- The authenticated caller context (`schemas.UserResponse` as used by
the router: only `id`, `role` and `branch` are read).
Modelled from the spec: the schemas module is not part of the provided
sources; §3 gives a User `id`, `role ∈ member|trainer|admin|superadmin`
and a nullable `branch`. -/
structure Caller where
  id : Nat
  role : String
  branch : Option String
deriving DecidableEq, Repr

/-- A `models.User` row.  Modelled from the spec (§3): the models module
is not part of the provided sources; the router reads only `id` and
`branch` of a user row. -/
structure User where
  id : Nat
  role : String
  branch : Option String
deriving DecidableEq, Repr

/-- A `models.Trainer` row.  Modelled from the spec (§3): id, name,
specialization stored as delimited text (nullable, hence `Option`),
rating, experience, contact fields, credential hash, availability,
branch.  No arithmetic is ever performed on `rating`; it is only copied,
so an integer carrier is adequate. -/
structure Trainer where
  id : Nat
  name : String
  specialization : Option String
  rating : Int
  experience : Nat
  phone : String
  email : String
  password : String
  availability : Option String
  branch_name : Option String
deriving DecidableEq, Repr

/-- A `models.SessionSchedule` row.  Modelled from the spec (§3); dates
and times are carried as abstract numeric codes. -/
structure SessionSchedule where
  id : Nat
  trainer_id : Nat
  session_name : String
  session_date : Nat
  start_time : Nat
  end_time : Nat
  branch_name : Option String
  max_capacity : Nat
  description : String
deriving DecidableEq, Repr

/-- A `models.SessionAttendance` row.  Modelled from the spec (§3). -/
structure SessionAttendance where
  id : Nat
  session_id : Nat
  user_id : Nat
  status : String
  attendance_date : Nat
deriving DecidableEq, Repr

/-- A `models.DietPlan` / `models.ExercisePlan` row (identical field
lists).  Modelled from the spec (§3). -/
structure Plan where
  id : Nat
  user_id : Nat
  assigned_by_trainer_id : Nat
  title : String
  description : String
  assigned_date : Nat
  expiry_date : Nat
  branch_name : Option String
deriving DecidableEq, Repr

/-- The relational store, with autoincrement counters for the tables the
router inserts into. -/
structure DB where
  users : List User
  trainers : List Trainer
  sessions : List SessionSchedule
  attendance : List SessionAttendance
  diet_plans : List Plan
  exercise_plans : List Plan
  next_trainer_id : Nat
  next_session_id : Nat
  next_attendance_id : Nat
deriving Repr

/-- Body of `POST/PUT /trainers/sessions*` (`schemas.SessionScheduleCreate`).
Modelled from the spec: the fields the router copies out of it. -/
structure SessionScheduleCreate where
  session_name : String
  session_date : Nat
  start_time : Nat
  end_time : Nat
  max_capacity : Nat
  description : String
deriving DecidableEq, Repr

/-- Body of attendance create/update (`schemas.SessionAttendanceCreate`).
Modelled from the spec: user_id, status, attendance_date. -/
structure AttendancePayload where
  user_id : Nat
  status : String
  attendance_date : Nat
deriving DecidableEq, Repr

/-- Body of plan update (`schemas.DietPlanCreate` /
`schemas.ExercisePlanCreate`).  Modelled from the spec. -/
structure PlanCreate where
  user_id : Nat
  title : String
  description : String
  expiry_date : Nat
deriving DecidableEq, Repr

/-- Body of `POST /trainers/add-trainer` and `PUT /trainers/{id}`
(`schemas.TrainerCreate`).  Modelled from the spec: specialization
travels as a list of strings. -/
structure TrainerCreate where
  name : String
  specialization : List String
  rating : Int
  experience : Nat
  phone : String
  email : String
  password : String
  availability : Option String
  branch_name : Option String
deriving DecidableEq, Repr

/-- Trainer as serialized in responses (`schemas.TrainerResponse`):
specialization is a list, the credential hash is not exposed. -/
structure TrainerResponse where
  id : Nat
  name : String
  specialization : List String
  rating : Int
  experience : Nat
  phone : String
  email : String
  availability : Option String
  branch_name : Option String
deriving DecidableEq, Repr

/-- Attendance row plus the eagerly attached `user` object
(`schemas.SessionAttendanceResponse`). -/
structure AttendanceResponse where
  record : SessionAttendance
  user : Option User
deriving DecidableEq, Repr

/-- Plan row plus embedded subject user and owning trainer
(`schemas.DietPlanResponse` / `schemas.ExercisePlanResponse`). -/
structure PlanResponse where
  plan : Plan
  user : User
  assigned_by_trainer : TrainerResponse
deriving DecidableEq, Repr

/-- Replace the first element satisfying `sel` by `new`: the effect of
mutating the ORM object returned by `.first()` and committing. -/
def replaceFirst (sel : α → Bool) (new : α) : List α → List α
  | [] => []
  | x :: xs => if sel x then new :: xs else x :: replaceFirst sel new xs

/-- Python truthiness of a nullable string: `None` and `""` are falsy. -/
def truthyStr : Option String → Bool
  | none => false
  | some s => !(s == "")

/-- Python `s.split(",")` at the character level: split on every comma,
keeping empty fragments. -/
def splitCommaList : List Char → List (List Char)
  | [] => [[]]
  | c :: cs =>
    if c = ',' then [] :: splitCommaList cs
    else
      match splitCommaList cs with
      | [] => [[c]]
      | p :: ps => (c :: p) :: ps

/-- Python `",".join(xss)` at the character level. -/
def joinCommaList : List (List Char) → List Char
  | [] => []
  | [x] => x
  | x :: y :: ys => x ++ ',' :: joinCommaList (y :: ys)

/-- Python `",".join(xs)` on strings. -/
def joinComma (xs : List String) : String :=
  ⟨joinCommaList (xs.map String.data)⟩

/-- The router's specialization normalization, applied identically on
every read path:
`t.specialization.split(",") if isinstance(t.specialization, str) and t.specialization else []`. -/
def normalizeSpecialization : Option String → List String
  | none => []
  | some s => if s.data = [] then [] else (splitCommaList s.data).map String.mk

/-- Serialize a trainer row (`schemas.TrainerResponse.from_orm` applied
after the in-place specialization split). -/
def trainerToResponse (t : Trainer) : TrainerResponse :=
  { id := t.id
    name := t.name
    specialization := normalizeSpecialization t.specialization
    rating := t.rating
    experience := t.experience
    phone := t.phone
    email := t.email
    availability := t.availability
    branch_name := t.branch_name }

/-- `get_current_active_user`: 401 when no valid caller context exists. -/
def requireUser : Option Caller → Except ApiError Caller
  | none => .error .unauthenticated
  | some c => .ok c

/-- `get_current_trainer`: 403 unless the caller's role is `trainer`. -/
def requireTrainer (c? : Option Caller) : Except ApiError Caller := do
  let c ← requireUser c?
  if c.role = "trainer" then .ok c else .error .forbidden

/-- `get_current_admin_or_superadmin`: 403 unless the caller's role is
`admin` or `superadmin`. -/
def requireAdminOrSuperadmin (c? : Option Caller) : Except ApiError Caller := do
  let c ← requireUser c?
  if c.role = "admin" ∨ c.role = "superadmin" then .ok c else .error .forbidden

/-- `POST /trainers/sessions` (`create_session`). -/
def create_session (c? : Option Caller) (p : SessionScheduleCreate) (db : DB) :
    Except ApiError (SessionSchedule × DB) := do
  let c ← requireTrainer c?
  if !truthyStr c.branch then .error .badRequest
  else
    let s : SessionSchedule :=
      { id := db.next_session_id
        trainer_id := c.id
        session_name := p.session_name
        session_date := p.session_date
        start_time := p.start_time
        end_time := p.end_time
        branch_name := c.branch
        max_capacity := p.max_capacity
        description := p.description }
    .ok (s, { db with
              sessions := db.sessions ++ [s]
              next_session_id := db.next_session_id + 1 })

/-- Selector of `update_session` / `delete_session`:
`id == session_id AND trainer_id == caller.id`. -/
def ownSessionSel (sid cid : Nat) (s : SessionSchedule) : Bool :=
  s.id == sid && s.trainer_id == cid

/-- `PUT /trainers/sessions/{session_id}` (`update_session`). -/
def update_session (c? : Option Caller) (sid : Nat) (p : SessionScheduleCreate)
    (db : DB) : Except ApiError (SessionSchedule × DB) := do
  let c ← requireTrainer c?
  match db.sessions.find? (ownSessionSel sid c.id) with
  | none => .error .notFound
  | some db_session =>
    let s' : SessionSchedule :=
      { db_session with
        session_name := p.session_name
        session_date := p.session_date
        start_time := p.start_time
        end_time := p.end_time
        max_capacity := p.max_capacity
        description := p.description }
    .ok (s', { db with sessions := replaceFirst (ownSessionSel sid c.id) s' db.sessions })

/-- `DELETE /trainers/sessions/{session_id}` (`delete_session`). -/
def delete_session (c? : Option Caller) (sid : Nat) (db : DB) :
    Except ApiError DB := do
  let c ← requireTrainer c?
  match db.sessions.find? (ownSessionSel sid c.id) with
  | none => .error .notFound
  | some _ =>
    .ok { db with sessions := db.sessions.eraseP (ownSessionSel sid c.id) }

/-- Selector of the attendance uniqueness tuple
`(session_id, user_id, attendance_date)`. -/
def tupleSel (sid uid d : Nat) (a : SessionAttendance) : Bool :=
  a.session_id == sid && a.user_id == uid && a.attendance_date == d

/-- Shared tail of `mark_session_attendance` after authorization: update
the status of an existing `(session_id, user_id, attendance_date)` row
in place, or insert a fresh row. -/
def attendanceUpsert (sid : Nat) (p : AttendancePayload) (user : User) (db : DB) :
    AttendanceResponse × DB :=
  match db.attendance.find? (tupleSel sid p.user_id p.attendance_date) with
  | some existing =>
    let updated := { existing with status := p.status }
    ({ record := updated, user := some user },
     { db with attendance :=
         replaceFirst (tupleSel sid p.user_id p.attendance_date) updated db.attendance })
  | none =>
    let na : SessionAttendance :=
      { id := db.next_attendance_id
        session_id := sid
        user_id := p.user_id
        status := p.status
        attendance_date := p.attendance_date }
    ({ record := na, user := some user },
     { db with
       attendance := db.attendance ++ [na]
       next_attendance_id := db.next_attendance_id + 1 })

/-- `POST /trainers/sessions/{session_id}/attendance`
(`mark_session_attendance`). -/
def mark_session_attendance (c? : Option Caller) (sid : Nat)
    (p : AttendancePayload) (db : DB) :
    Except ApiError (AttendanceResponse × DB) := do
  let c ← requireUser c?
  match db.sessions.find? (fun s => s.id == sid) with
  | none => .error .notFound
  | some db_session =>
    if c.role = "trainer" then
      if db_session.trainer_id ≠ c.id ∨ db_session.branch_name ≠ c.branch then
        .error .forbidden
      else
        match db.users.find? (fun u => u.id == p.user_id && u.branch == c.branch) with
        | none => .error .notFound
        | some user => .ok (attendanceUpsert sid p user db)
    else
      if p.user_id ≠ c.id then .error .forbidden
      else
        match db.users.find? (fun u => u.id == c.id) with
        | none => .error .notFound
        | some user => .ok (attendanceUpsert sid p user db)

/-- Shared tail of `update_session_attendance`: overwrite status and
attendance_date of the fetched row (`r0` already carries a reassigned
user_id on the trainer path) and commit. -/
def applyAttendanceUpdate (aid : Nat) (p : AttendancePayload)
    (r0 : SessionAttendance) (db : DB) : AttendanceResponse × DB :=
  let updated := { r0 with status := p.status, attendance_date := p.attendance_date }
  ({ record := updated
     user := db.users.find? (fun u => u.id == updated.user_id) },
   { db with attendance := replaceFirst (fun a => a.id == aid) updated db.attendance })

/-- `PUT /trainers/sessions/attendance/{attendance_id}`
(`update_session_attendance`). -/
def update_session_attendance (c? : Option Caller) (aid : Nat)
    (p : AttendancePayload) (db : DB) :
    Except ApiError (AttendanceResponse × DB) := do
  let c ← requireUser c?
  match db.attendance.find? (fun a => a.id == aid) with
  | none => .error .notFound
  | some db_attendance =>
    if c.role = "trainer" then
      match db.sessions.find? (fun s =>
          s.id == db_attendance.session_id && s.trainer_id == c.id &&
          s.branch_name == c.branch) with
      | none => .error .forbidden
      | some _ =>
        if p.user_id ≠ db_attendance.user_id then
          match db.users.find? (fun u => u.id == p.user_id && u.branch == c.branch) with
          | none => .error .notFound
          | some _ =>
            .ok (applyAttendanceUpdate aid p { db_attendance with user_id := p.user_id } db)
        else
          .ok (applyAttendanceUpdate aid p db_attendance db)
    else
      if db_attendance.user_id ≠ c.id then .error .forbidden
      else if p.user_id ≠ c.id then .error .forbidden
      else .ok (applyAttendanceUpdate aid p db_attendance db)

/-- `DELETE /trainers/sessions/attendance/{attendance_id}`
(`delete_session_attendance`). -/
def delete_session_attendance (c? : Option Caller) (aid : Nat) (db : DB) :
    Except ApiError DB := do
  let c ← requireUser c?
  match db.attendance.find? (fun a => a.id == aid) with
  | none => .error .notFound
  | some db_attendance =>
    if c.role = "trainer" then
      match db.sessions.find? (fun s =>
          s.id == db_attendance.session_id && s.trainer_id == c.id &&
          s.branch_name == c.branch) with
      | none => .error .forbidden
      | some _ =>
        .ok { db with attendance := db.attendance.eraseP (fun a => a.id == aid) }
    else
      if db_attendance.user_id ≠ c.id then .error .forbidden
      else
        .ok { db with attendance := db.attendance.eraseP (fun a => a.id == aid) }

/-- Selector of a plan fetched for update/delete: `id == plan_id AND
assigned_by_trainer_id == caller.id AND branch_name == caller.branch`
(SQLAlchemy renders `== None` as `IS NULL`, so plain `Option` equality
is the right semantics). -/
def ownPlanSel (pid : Nat) (c : Caller) (pl : Plan) : Bool :=
  pl.id == pid && pl.assigned_by_trainer_id == c.id &&
    pl.branch_name == c.branch

/-- Response assembly shared by the plan update endpoints: fetch the
subject user (a missing row makes `from_orm(None)` blow up — an
internal error), fetch the owning trainer, falling back to the
"Unknown Trainer" placeholder. -/
def planResponse (pl : Plan) (db : DB) : Except ApiError PlanResponse :=
  match db.users.find? (fun u => u.id == pl.user_id) with
  | none => .error .internal
  | some user =>
    let trainer_schema :=
      match db.trainers.find? (fun t => t.id == pl.assigned_by_trainer_id) with
      | some trainer_data => trainerToResponse trainer_data
      | none =>
        { id := pl.assigned_by_trainer_id
          name := "Unknown Trainer"
          specialization := []
          rating := 0
          experience := 0
          phone := ""
          email := ""
          availability := none
          branch_name := none }
    .ok { plan := pl, user := user, assigned_by_trainer := trainer_schema }

/-- `PUT /trainers/diet-plans/{plan_id}` (`update_diet_plan`). -/
def update_diet_plan (c? : Option Caller) (pid : Nat) (p : PlanCreate)
    (db : DB) : Except ApiError (PlanResponse × DB) := do
  let c ← requireTrainer c?
  match db.diet_plans.find? (ownPlanSel pid c) with
  | none => .error .notFound
  | some db_plan =>
    if p.user_id ≠ db_plan.user_id then .error .badRequest
    else
      let plan' := { db_plan with
                     title := p.title
                     description := p.description
                     expiry_date := p.expiry_date }
      let db' := { db with diet_plans := replaceFirst (ownPlanSel pid c) plan' db.diet_plans }
      let resp ← planResponse plan' db'
      .ok (resp, db')

/-- `PUT /trainers/exercise-plans/{plan_id}` (`update_exercise_plan`). -/
def update_exercise_plan (c? : Option Caller) (pid : Nat) (p : PlanCreate)
    (db : DB) : Except ApiError (PlanResponse × DB) := do
  let c ← requireTrainer c?
  match db.exercise_plans.find? (ownPlanSel pid c) with
  | none => .error .notFound
  | some db_plan =>
    if p.user_id ≠ db_plan.user_id then .error .badRequest
    else
      let plan' := { db_plan with
                     title := p.title
                     description := p.description
                     expiry_date := p.expiry_date }
      let db' := { db with exercise_plans := replaceFirst (ownPlanSel pid c) plan' db.exercise_plans }
      let resp ← planResponse plan' db'
      .ok (resp, db')

/-- The `models.Trainer(...)` row constructed by `add_trainer`: password
hashed, specialization joined with ",", branch from the admin's own
branch or, for a superadmin, from the payload. -/
def newTrainerRow (c : Caller) (hash : String → String) (p : TrainerCreate)
    (nid : Nat) : Trainer :=
  { id := nid
    name := p.name
    specialization := some (joinComma p.specialization)
    rating := p.rating
    experience := p.experience
    phone := p.phone
    email := p.email
    password := hash p.password
    availability := p.availability
    branch_name := if c.role = "admin" then c.branch else p.branch_name }

/-- The response `add_trainer` serializes: the new row with the
specialization list of the payload reinstated in place of the stored
delimited string. -/
def newTrainerResponse (c : Caller) (p : TrainerCreate) (nid : Nat) : TrainerResponse :=
  { id := nid
    name := p.name
    specialization := p.specialization
    rating := p.rating
    experience := p.experience
    phone := p.phone
    email := p.email
    availability := p.availability
    branch_name := if c.role = "admin" then c.branch else p.branch_name }

/-- `POST /trainers/add-trainer` (`add_trainer`).  `hash` stands for the
external `utils.get_password_hash`. -/
def add_trainer (c? : Option Caller) (hash : String → String)
    (p : TrainerCreate) (db : DB) : Except ApiError (TrainerResponse × DB) := do
  let c ← requireAdminOrSuperadmin c?
  match db.trainers.find? (fun t => t.email == p.email) with
  | some _ => .error .badRequest
  | none =>
    let nt : Trainer := newTrainerRow c hash p db.next_trainer_id
    let db' := { db with
                 trainers := db.trainers ++ [nt]
                 next_trainer_id := db.next_trainer_id + 1 }
    .ok (newTrainerResponse c p db.next_trainer_id, db')

/-- `GET /trainers/` (`get_trainers`). -/
def get_trainers (c? : Option Caller) (db : DB) :
    Except ApiError (List TrainerResponse) := do
  let c ← requireUser c?
  if c.role = "admin" then
    if !truthyStr c.branch then .error .badRequest
    else
      .ok ((db.trainers.filter (fun t => t.branch_name == c.branch)).map trainerToResponse)
  else if c.role = "superadmin" then
    .ok (db.trainers.map trainerToResponse)
  else
    if truthyStr c.branch then
      .ok ((db.trainers.filter (fun t => t.branch_name == c.branch)).map trainerToResponse)
    else
      .ok (db.trainers.map trainerToResponse)

/-- `GET /trainers/{trainer_id}` (`get_trainer_by_id`).  The route
declares no authentication dependency, so the caller context is never
consulted. -/
def get_trainer_by_id (_c? : Option Caller) (tid : Nat) (db : DB) :
    Except ApiError TrainerResponse :=
  match db.trainers.find? (fun t => t.id == tid) with
  | none => .error .notFound
  | some t => .ok (trainerToResponse t)

/-- The field-by-field overwrite `update_trainer` performs on the
fetched row: every column except the primary key comes from the payload,
the password re-hashed. -/
def applyTrainerUpdate (hash : String → String) (p : TrainerCreate)
    (t0 : Trainer) : Trainer :=
  { t0 with
    name := p.name
    specialization := some (joinComma p.specialization)
    rating := p.rating
    experience := p.experience
    phone := p.phone
    email := p.email
    password := hash p.password
    availability := p.availability
    branch_name := p.branch_name }

/-- The response `update_trainer` serializes: the updated row with the
payload's specialization list reinstated. -/
def trainerUpdateResponse (p : TrainerCreate) (t' : Trainer) : TrainerResponse :=
  { id := t'.id
    name := t'.name
    specialization := p.specialization
    rating := t'.rating
    experience := t'.experience
    phone := t'.phone
    email := t'.email
    availability := t'.availability
    branch_name := t'.branch_name }

/-- `PUT /trainers/{trainer_id}` (`update_trainer`).  No authentication
dependency. -/
def update_trainer (_c? : Option Caller) (hash : String → String)
    (tid : Nat) (p : TrainerCreate) (db : DB) :
    Except ApiError (TrainerResponse × DB) :=
  match db.trainers.find? (fun t => t.id == tid) with
  | none => .error .notFound
  | some db_trainer =>
    let t' : Trainer := applyTrainerUpdate hash p db_trainer
    let db' := { db with trainers := replaceFirst (fun t => t.id == tid) t' db.trainers }
    .ok (trainerUpdateResponse p t', db')

/-- `DELETE /trainers/{trainer_id}` (`delete_trainer`).  No
authentication dependency. -/
def delete_trainer (_c? : Option Caller) (tid : Nat) (db : DB) :
    Except ApiError DB :=
  match db.trainers.find? (fun t => t.id == tid) with
  | none => .error .notFound
  | some _ =>
    .ok { db with trainers := db.trainers.eraseP (fun t => t.id == tid) }

/-- Number of attendance rows carrying a given uniqueness tuple. -/
def countTuple (db : DB) (sid uid d : Nat) : Nat :=
  (db.attendance.filter (tupleSel sid uid d)).length

/-- The spec's attendance invariant: at most one row per
`(session_id, user_id, attendance_date)` tuple. -/
def AttendanceInv (db : DB) : Prop :=
  ∀ sid uid d, countTuple db sid uid d ≤ 1

/-! ### Concrete states used to exercise the theorems -/

/-- A member of branch X. -/
def exMember : Caller := { id := 1, role := "member", branch := some "X" }

/-- A state with one session (owned by trainer 10, branch X) and one
member user, no attendance yet. -/
def exDb : DB :=
  { users := [{ id := 1, role := "member", branch := some "X" }]
    trainers := []
    sessions := [{ id := 1, trainer_id := 10, session_name := "Yoga"
                   session_date := 601, start_time := 9, end_time := 10
                   branch_name := some "X", max_capacity := 20
                   description := "morning yoga" }]
    attendance := []
    diet_plans := []
    exercise_plans := []
    next_trainer_id := 1
    next_session_id := 2
    next_attendance_id := 1 }

def c1p1 : AttendancePayload := { user_id := 1, status := "booked", attendance_date := 7 }

def c1p2 : AttendancePayload := { user_id := 1, status := "attended", attendance_date := 7 }

def c1run1 : Except ApiError (AttendanceResponse × DB) :=
  mark_session_attendance (some exMember) 1 c1p1 exDb

def c1db1 : DB :=
  match c1run1 with
  | .ok (_, d) => d
  | .error _ => exDb

def c1r1 : AttendanceResponse :=
  match c1run1 with
  | .ok (r, _) => r
  | .error _ => { record := { id := 0, session_id := 0, user_id := 0, status := "", attendance_date := 0 }, user := none }

def c1run2 : Except ApiError (AttendanceResponse × DB) :=
  mark_session_attendance (some exMember) 1 c1p2 c1db1

def c1db2 : DB :=
  match c1run2 with
  | .ok (_, d) => d
  | .error _ => exDb

def c1r2 : AttendanceResponse :=
  match c1run2 with
  | .ok (r, _) => r
  | .error _ => { record := { id := 0, session_id := 0, user_id := 0, status := "", attendance_date := 0 }, user := none }

/-- Trainer 10 of branch A, owner of session 1 in the C2 counterexample
state. -/
def c2xTrainer : Caller := { id := 10, role := "trainer", branch := some "A" }

/-- A state satisfying the uniqueness invariant: two attendance rows for
session 1 on date 5, one for user 1 and one for user 2. -/
def c2xDb : DB :=
  { users := [{ id := 1, role := "member", branch := some "A" },
              { id := 2, role := "member", branch := some "A" }]
    trainers := []
    sessions := [{ id := 1, trainer_id := 10, session_name := "s"
                   session_date := 1, start_time := 1, end_time := 2
                   branch_name := some "A", max_capacity := 10
                   description := "" }]
    attendance := [{ id := 1, session_id := 1, user_id := 1, status := "booked", attendance_date := 5 },
                   { id := 2, session_id := 1, user_id := 2, status := "booked", attendance_date := 5 }]
    diet_plans := []
    exercise_plans := []
    next_trainer_id := 1
    next_session_id := 2
    next_attendance_id := 3 }

/-- Reassign attendance row 2 to user 1 (same date): after this update
rows 1 and 2 carry the same uniqueness tuple. -/
def c2xPayload : AttendancePayload := { user_id := 1, status := "attended", attendance_date := 5 }

def c2xRun : Except ApiError (AttendanceResponse × DB) :=
  update_session_attendance (some c2xTrainer) 2 c2xPayload c2xDb

def c2xDb' : DB :=
  match c2xRun with
  | .ok (_, d) => d
  | .error _ => c2xDb

def c2xR : AttendanceResponse :=
  match c2xRun with
  | .ok (r, _) => r
  | .error _ => { record := { id := 0, session_id := 0, user_id := 0, status := "", attendance_date := 0 }, user := none }

/-- Trainer 3, who does not own session 1 of the state below. -/
def c3xCaller : Caller := { id := 3, role := "trainer", branch := some "A" }

/-- A state whose only session (id 1) belongs to trainer 2. -/
def c3xDb : DB :=
  { users := []
    trainers := []
    sessions := [{ id := 1, trainer_id := 2, session_name := "s"
                   session_date := 1, start_time := 1, end_time := 2
                   branch_name := some "A", max_capacity := 10
                   description := "" }]
    attendance := []
    diet_plans := []
    exercise_plans := []
    next_trainer_id := 1
    next_session_id := 2
    next_attendance_id := 1 }

def c3xPayload : SessionScheduleCreate :=
  { session_name := "s2", session_date := 2, start_time := 3, end_time := 4
    max_capacity := 5, description := "d" }

/-- Trainer 10 of branch A, used to exercise session create + update. -/
def c4xTrainer : Caller := { id := 10, role := "trainer", branch := some "A" }

def c4xP1 : SessionScheduleCreate :=
  { session_name := "Yoga", session_date := 601, start_time := 9, end_time := 10
    max_capacity := 20, description := "m" }

def c4xP2 : SessionScheduleCreate :=
  { session_name := "Pilates", session_date := 602, start_time := 11, end_time := 12
    max_capacity := 15, description := "n" }

def c4xDb : DB :=
  { users := [], trainers := [], sessions := [], attendance := []
    diet_plans := [], exercise_plans := []
    next_trainer_id := 1, next_session_id := 1, next_attendance_id := 1 }

def c4xRun1 : Except ApiError (SessionSchedule × DB) :=
  create_session (some c4xTrainer) c4xP1 c4xDb

def c4xS : SessionSchedule :=
  match c4xRun1 with
  | .ok (s, _) => s
  | .error _ => { id := 0, trainer_id := 0, session_name := "", session_date := 0,
                  start_time := 0, end_time := 0, branch_name := none,
                  max_capacity := 0, description := "" }

def c4xDb1 : DB :=
  match c4xRun1 with
  | .ok (_, d) => d
  | .error _ => c4xDb

def c4xRun2 : Except ApiError (SessionSchedule × DB) :=
  update_session (some c4xTrainer) 1 c4xP2 c4xDb1

def c4xS2 : SessionSchedule :=
  match c4xRun2 with
  | .ok (s, _) => s
  | .error _ => { id := 0, trainer_id := 0, session_name := "", session_date := 0,
                  start_time := 0, end_time := 0, branch_name := none,
                  max_capacity := 0, description := "" }

def c4xDb2 : DB :=
  match c4xRun2 with
  | .ok (_, d) => d
  | .error _ => c4xDb1

/-- A member (id 9) who is not the subject of any attendance row of the
C2 state. -/
def c5xCaller : Caller := { id := 9, role := "member", branch := some "A" }

def c5xPayload : AttendancePayload := { user_id := 1, status := "booked", attendance_date := 5 }

/-- Trainer 1, currently of branch B. -/
def c6xCaller : Caller := { id := 1, role := "trainer", branch := some "B" }

/-- Trainer 1 with the branch the plan was assigned under. -/
def c6wCaller : Caller := { id := 1, role := "trainer", branch := some "A" }

/-- A plan assigned by trainer 1 while they were in branch A. -/
def c6xPlan : Plan :=
  { id := 1, user_id := 5, assigned_by_trainer_id := 1, title := "diet"
    description := "d", assigned_date := 0, expiry_date := 9
    branch_name := some "A" }

def c6xDb : DB :=
  { users := [{ id := 5, role := "member", branch := some "A" }]
    trainers := []
    sessions := []
    attendance := []
    diet_plans := [c6xPlan]
    exercise_plans := [c6xPlan]
    next_trainer_id := 1
    next_session_id := 1
    next_attendance_id := 1 }

/-- An update payload that tries to move the plan to user 99. -/
def c6xPayload : PlanCreate :=
  { user_id := 99, title := "t2", description := "d2", expiry_date := 9 }

/-- An admin whose branch is the empty string — non-null, but falsy in
Python. -/
def c7xAdmin : Caller := { id := 1, role := "admin", branch := some "" }

def c7xTrainerRow : Trainer :=
  { id := 1, name := "T", specialization := some "yoga", rating := 4
    experience := 2, phone := "p", email := "t@x", password := "h"
    availability := none, branch_name := some "A" }

def c7xDb : DB :=
  { users := []
    trainers := [c7xTrainerRow]
    sessions := []
    attendance := []
    diet_plans := []
    exercise_plans := []
    next_trainer_id := 2
    next_session_id := 1
    next_attendance_id := 1 }

/-- An admin of (non-empty) branch A. -/
def c7wAdmin : Caller := { id := 2, role := "admin", branch := some "A" }

def c7wSuper : Caller := { id := 3, role := "superadmin", branch := none }

def c7wMember : Caller := { id := 4, role := "member", branch := some "A" }

/-- A superadmin used to exercise the trainer creation path. -/
def c8xAdmin : Caller := { id := 1, role := "superadmin", branch := some "HQ" }

def c8xPayload : TrainerCreate :=
  { name := "New T", specialization := ["yoga", "cardio"], rating := 5
    experience := 3, phone := "p", email := "new@x", password := "pw"
    availability := some "mornings", branch_name := some "B" }

def c8xDb : DB :=
  { users := []
    trainers := []
    sessions := []
    attendance := []
    diet_plans := []
    exercise_plans := []
    next_trainer_id := 1
    next_session_id := 1
    next_attendance_id := 1 }

/-- A member of branch Y booking a branch-X session. -/
def c10xCaller : Caller := { id := 7, role := "member", branch := some "Y" }

def c10xP : AttendancePayload := { user_id := 7, status := "booked", attendance_date := 3 }

def c10xDb : DB :=
  { users := [{ id := 7, role := "member", branch := some "Y" }]
    trainers := []
    sessions := [{ id := 1, trainer_id := 10, session_name := "s"
                   session_date := 1, start_time := 1, end_time := 2
                   branch_name := some "X", max_capacity := 10
                   description := "" }]
    attendance := []
    diet_plans := []
    exercise_plans := []
    next_trainer_id := 1
    next_session_id := 2
    next_attendance_id := 1 }

/-! ### General list lemmas about the storage primitives -/

theorem replaceFirst_length (sel : α → Bool) (new : α) :
    ∀ l : List α, (replaceFirst sel new l).length = l.length := by
  intro l
  induction l with
  | nil => rfl
  | cons x xs ih =>
    by_cases h : sel x = true
    · simp [replaceFirst, h]
    · simp [replaceFirst, h, ih]

theorem replaceFirst_filter_length (q sel : α → Bool) (new r : α)
    (hq : q new = q r) :
    ∀ l : List α, l.find? sel = some r →
      ((replaceFirst sel new l).filter q).length = (l.filter q).length := by
  intro l
  induction l with
  | nil => intro h; simp [List.find?] at h
  | cons x xs ih =>
    intro hfind
    by_cases hx : sel x = true
    · have hr : x = r := by
        simp only [List.find?, hx] at hfind
        exact Option.some.inj hfind
      subst hr
      simp only [replaceFirst, hx, if_true]
      by_cases hqx : q x = true
      · simp [List.filter, hqx, hq ▸ hqx]
      · have hqnew : q new = false := by
          rw [hq]; exact Bool.not_eq_true _ ▸ (by simpa using hqx)
        simp [List.filter, hqnew, Bool.not_eq_true _ ▸ (by simpa using hqx : ¬ q x = true)]
    · have hfind' : xs.find? sel = some r := by
        simp only [List.find?, Bool.not_eq_true _ ▸ hx] at hfind
        simpa [hx] using hfind
      simp only [replaceFirst, hx, if_false]
      by_cases hqx : q x = true
      · simp [List.filter, hqx, ih hfind']
      · simp [List.filter, hqx, ih hfind']

theorem filter_eq_singleton_of_le_one (p : α → Bool) {l : List α} {a : α}
    (ha : a ∈ l) (hpa : p a = true) (h1 : (l.filter p).length ≤ 1) :
    l.filter p = [a] := by
  have hmem : a ∈ l.filter p := List.mem_filter.mpr ⟨ha, hpa⟩
  have hlen : 1 ≤ (l.filter p).length := by
    cases hfp : l.filter p with
    | nil => rw [hfp] at hmem; cases hmem
    | cons b bs => simp [hfp]
  have : (l.filter p).length = 1 := le_antisymm h1 hlen
  obtain ⟨b, hb⟩ := List.length_eq_one.mp this
  rw [hb] at hmem
  have hab : a = b := by simpa using hmem
  rw [hb, hab]

theorem filter_replaceFirst_singleton (q : α → Bool) (new x : α)
    (hq : q new = true) :
    ∀ l : List α, l.filter q = [x] →
      (replaceFirst q new l).filter q = [new] := by
  intro l
  induction l with
  | nil => intro h; simp at h
  | cons a t ih =>
    intro hfil
    by_cases ha : q a = true
    · simp only [List.filter, ha] at hfil
      have ht : t.filter q = [] := by
        have := List.cons.inj hfil
        exact this.2
      simp [replaceFirst, ha, List.filter, hq, ht]
    · simp only [List.filter, ha] at hfil
      have hfil' : t.filter q = [x] := by simpa [ha] using hfil
      simp [replaceFirst, ha, List.filter, ih hfil']

theorem eraseP_filter_le (sel q : α → Bool) (l : List α) :
    ((l.eraseP sel).filter q).length ≤ (l.filter q).length :=
  ((l.eraseP_sublist).filter q).length_le

theorem eraseP_filter_count (sel : α → Bool) {r : α} :
    ∀ l : List α, l.find? sel = some r →
      ((l.eraseP sel).filter sel).length + 1 = (l.filter sel).length := by
  intro l
  induction l with
  | nil => intro h; simp [List.find?] at h
  | cons a t ih =>
    intro hfind
    by_cases ha : sel a = true
    · simp [List.eraseP_cons, ha, List.filter]
    · have hfind' : t.find? sel = some r := by
        simpa [List.find?, ha] using hfind
      simp [List.eraseP_cons, ha, List.filter, ih hfind']

theorem find?_some_of_exists (p : α → Bool) (l : List α)
    (h : ∃ a ∈ l, p a = true) : ∃ a, l.find? p = some a := by
  cases hf : l.find? p with
  | some a => exact ⟨a, rfl⟩
  | none =>
    obtain ⟨a, ha, hpa⟩ := h
    exact absurd hpa (List.find?_eq_none.mp hf a ha)

/-! ### Split/join of the specialization string -/

theorem splitCommaList_no_comma :
    ∀ {cs : List Char}, ',' ∉ cs → splitCommaList cs = [cs] := by
  intro cs
  induction cs with
  | nil => intro _; rfl
  | cons c t ih =>
    intro h
    have hc : ¬ c = ',' := fun hcc => h (by rw [hcc]; exact List.mem_cons_self _ _)
    have ht : ',' ∉ t := fun htt => h (List.mem_cons_of_mem c htt)
    simp [splitCommaList, if_neg hc, ih ht]

theorem splitCommaList_append :
    ∀ {pfx : List Char}, ',' ∉ pfx → ∀ t : List Char,
      splitCommaList (pfx ++ ',' :: t) = pfx :: splitCommaList t := by
  intro pfx
  induction pfx with
  | nil => intro _ t; simp [splitCommaList]
  | cons c cs ih =>
    intro h t
    have hc : ¬ c = ',' := fun hcc => h (by rw [hcc]; exact List.mem_cons_self _ _)
    have hcs : ',' ∉ cs := fun htt => h (List.mem_cons_of_mem c htt)
    have hrec := ih hcs t
    simp only [List.cons_append, splitCommaList, if_neg hc]
    rw [show cs.append (',' :: t) = cs ++ ',' :: t from rfl, hrec]

theorem join_split_cons :
    ∀ (xs : List (List Char)) (x : List Char), x ≠ [] → ',' ∉ x →
      (∀ y ∈ xs, y ≠ [] ∧ ',' ∉ y) →
      joinCommaList (x :: xs) ≠ [] ∧
        splitCommaList (joinCommaList (x :: xs)) = x :: xs := by
  intro xs
  induction xs with
  | nil =>
    intro x hx hxc _
    exact ⟨by simpa [joinCommaList] using hx, by simp [joinCommaList, splitCommaList_no_comma hxc]⟩
  | cons y ys ih =>
    intro x hx hxc h
    have hy := h y (List.mem_cons_self y ys)
    have hys : ∀ z ∈ ys, z ≠ [] ∧ ',' ∉ z := fun z hz => h z (List.mem_cons_of_mem y hz)
    have hrec := ih y hy.1 hy.2 hys
    constructor
    · show x ++ ',' :: joinCommaList (y :: ys) ≠ []
      cases x <;> simp
    · show splitCommaList (x ++ ',' :: joinCommaList (y :: ys)) = x :: y :: ys
      rw [splitCommaList_append hxc, hrec.2]

theorem mk_data (s : String) : String.mk s.data = s := rfl

theorem data_eq_nil_iff (s : String) : s.data = [] ↔ s = "" := by
  constructor
  · intro h
    cases s with
    | mk d =>
      have hd : d = [] := h
      subst hd
      rfl
  · intro h
    subst h
    rfl

theorem map_data_mk (l : List String) : (l.map String.data).map String.mk = l := by
  induction l with
  | nil => rfl
  | cons a t ih => simp [mk_data, ih]

theorem normalize_some_ne (s : String) (h : ¬ s.data = []) :
    normalizeSpecialization (some s) = (splitCommaList s.data).map String.mk := by
  simp [normalizeSpecialization, h]

theorem normalize_join (xs : List String)
    (h : ∀ x ∈ xs, x ≠ "" ∧ ',' ∉ x.data) :
    normalizeSpecialization (some (joinComma xs)) = xs := by
  cases xs with
  | nil => rfl
  | cons x t =>
    have hx := h x (List.mem_cons_self x t)
    have hxd : x.data ≠ [] := fun hd => hx.1 ((data_eq_nil_iff x).mp hd)
    have hys : ∀ y ∈ t.map String.data, y ≠ [] ∧ ',' ∉ y := by
      intro y hy
      obtain ⟨z, hz, hzy⟩ := List.mem_map.mp hy
      have hzc := h z (List.mem_cons_of_mem x hz)
      exact ⟨fun hd => hzc.1 ((data_eq_nil_iff z).mp (hzy ▸ hd)), hzy ▸ hzc.2⟩
    have hmain := join_split_cons (t.map String.data) x.data hxd hx.2 hys
    rw [normalize_some_ne (joinComma (x :: t)) hmain.1]
    show (splitCommaList (joinCommaList (x.data :: t.map String.data))).map String.mk = x :: t
    rw [hmain.2]
    simp only [List.map_cons, mk_data, map_data_mk]

/-! ### Shape lemmas: what a successful call did to the state -/

theorem mark_ok_eq_upsert {c? : Option Caller} {sid : Nat} {p : AttendancePayload}
    {db : DB} {resp : AttendanceResponse} {db' : DB}
    (h : mark_session_attendance c? sid p db = .ok (resp, db')) :
    ∃ user, (resp, db') = attendanceUpsert sid p user db := by
  cases c? with
  | none => simp [mark_session_attendance, requireUser, bind, Except.bind] at h
  | some c =>
    unfold mark_session_attendance at h
    simp only [requireUser, bind, Except.bind] at h
    split at h
    · exact absurd h (by simp)
    · split at h
      · split at h
        · exact absurd h (by simp)
        · split at h
          · exact absurd h (by simp)
          · rename_i user _
            exact ⟨user, by simpa using h.symm⟩
      · split at h
        · exact absurd h (by simp)
        · split at h
          · exact absurd h (by simp)
          · rename_i user _
            exact ⟨user, by simpa using h.symm⟩

theorem delete_att_ok_shape {c? : Option Caller} {aid : Nat} {db db' : DB}
    (h : delete_session_attendance c? aid db = .ok db') :
    db'.attendance = db.attendance.eraseP (fun a => a.id == aid) := by
  cases c? with
  | none => simp [delete_session_attendance, requireUser, bind, Except.bind] at h
  | some c =>
    unfold delete_session_attendance at h
    simp only [requireUser, bind, Except.bind] at h
    split at h
    · exact absurd h (by simp)
    · split at h
      · split at h
        · exact absurd h (by simp)
        · cases h.symm; rfl
      · split at h
        · exact absurd h (by simp)
        · cases h.symm; rfl

theorem update_att_ok_shape {c? : Option Caller} {aid : Nat} {p : AttendancePayload}
    {db : DB} {resp : AttendanceResponse} {db' : DB}
    (h : update_session_attendance c? aid p db = .ok (resp, db')) :
    ∃ a0, db.attendance.find? (fun a => a.id == aid) = some a0 ∧
      ((resp, db') = applyAttendanceUpdate aid p a0 db ∨
       (resp, db') = applyAttendanceUpdate aid p { a0 with user_id := p.user_id } db) := by
  cases c? with
  | none => simp [update_session_attendance, requireUser, bind, Except.bind] at h
  | some c =>
    unfold update_session_attendance at h
    simp only [requireUser, bind, Except.bind] at h
    split at h
    · exact absurd h (by simp)
    · rename_i a0 hfind
      split at h
      · split at h
        · exact absurd h (by simp)
        · split at h
          · split at h
            · exact absurd h (by simp)
            · exact ⟨a0, hfind, Or.inr (by simpa using h.symm)⟩
          · exact ⟨a0, hfind, Or.inl (by simpa using h.symm)⟩
      · split at h
        · exact absurd h (by simp)
        · split at h
          · exact absurd h (by simp)
          · exact ⟨a0, hfind, Or.inl (by simpa using h.symm)⟩

theorem tupleSel_set_status (sid uid d : Nat) (a : SessionAttendance) (st : String) :
    tupleSel sid uid d { a with status := st } = tupleSel sid uid d a := rfl

theorem attendanceUpsert_filter (sid : Nat) (p : AttendancePayload) (user : User)
    (db : DB) (h : countTuple db sid p.user_id p.attendance_date ≤ 1) :
    (attendanceUpsert sid p user db).2.attendance.filter
        (tupleSel sid p.user_id p.attendance_date)
      = [(attendanceUpsert sid p user db).1.record] ∧
    (attendanceUpsert sid p user db).1.record.status = p.status := by
  rcases hf : db.attendance.find? (tupleSel sid p.user_id p.attendance_date) with _ | ex
  · refine ⟨?_, ?_⟩
    · simp only [attendanceUpsert, hf]
      rw [List.filter_append]
      have h0 : db.attendance.filter (tupleSel sid p.user_id p.attendance_date) = [] :=
        List.filter_eq_nil_iff.mpr (List.find?_eq_none.mp hf)
      rw [h0]
      simp [tupleSel]
    · simp [attendanceUpsert, hf]
  · have hmem := List.mem_of_find?_eq_some hf
    have hpex := List.find?_some hf
    have hsing := filter_eq_singleton_of_le_one _ hmem hpex h
    refine ⟨?_, ?_⟩
    · simp only [attendanceUpsert, hf]
      exact filter_replaceFirst_singleton _ _ ex
        (by rw [tupleSel_set_status]; exact hpex) db.attendance hsing
    · simp [attendanceUpsert, hf]

theorem attendanceUpsert_length_of_exists (sid : Nat) (p : AttendancePayload)
    (user : User) (db : DB)
    (h : 1 ≤ countTuple db sid p.user_id p.attendance_date) :
    (attendanceUpsert sid p user db).2.attendance.length = db.attendance.length := by
  rcases hf : db.attendance.find? (tupleSel sid p.user_id p.attendance_date) with _ | ex
  · exfalso
    have h0 : db.attendance.filter (tupleSel sid p.user_id p.attendance_date) = [] :=
      List.filter_eq_nil_iff.mpr (List.find?_eq_none.mp hf)
    unfold countTuple at h
    rw [h0] at h
    simp at h
  · simp only [attendanceUpsert, hf]
    exact replaceFirst_length _ _ _

theorem attendanceUpsert_inv (sid : Nat) (p : AttendancePayload) (user : User)
    (db : DB) (hinv : AttendanceInv db) :
    AttendanceInv (attendanceUpsert sid p user db).2 := by
  intro s' u' d'
  unfold countTuple
  rcases hf : db.attendance.find? (tupleSel sid p.user_id p.attendance_date) with _ | ex
  · simp only [attendanceUpsert, hf]
    rw [List.filter_append]
    by_cases hna : tupleSel s' u' d'
        { id := db.next_attendance_id, session_id := sid, user_id := p.user_id,
          status := p.status, attendance_date := p.attendance_date } = true
    · simp only [tupleSel, Bool.and_eq_true, beq_iff_eq] at hna
      obtain ⟨⟨hs, hu⟩, hd⟩ := hna
      subst hs; subst hu; subst hd
      have h0 : db.attendance.filter (tupleSel sid p.user_id p.attendance_date) = [] :=
        List.filter_eq_nil_iff.mpr (List.find?_eq_none.mp hf)
      rw [h0]
      simp [tupleSel]
    · have hz : List.filter (tupleSel s' u' d')
          [{ id := db.next_attendance_id, session_id := sid, user_id := p.user_id,
             status := p.status, attendance_date := p.attendance_date }] = [] := by
        simp [List.filter, hna]
      rw [hz]
      simpa using hinv s' u' d'
  · simp only [attendanceUpsert, hf]
    rw [replaceFirst_filter_length (tupleSel s' u' d') _ _ ex
      (tupleSel_set_status s' u' d' ex p.status) db.attendance hf]
    exact hinv s' u' d'

theorem applyAttendanceUpdate_inv (aid : Nat) (p : AttendancePayload)
    (a0 : SessionAttendance) (db : DB)
    (hfind : db.attendance.find? (fun a => a.id == aid) = some a0)
    (hdate : p.attendance_date = a0.attendance_date) (hinv : AttendanceInv db) :
    AttendanceInv (applyAttendanceUpdate aid p a0 db).2 := by
  intro s' u' d'
  unfold countTuple applyAttendanceUpdate
  have hq : tupleSel s' u' d'
      { a0 with status := p.status, attendance_date := p.attendance_date } =
      tupleSel s' u' d' a0 := by
    simp [tupleSel, hdate]
  rw [replaceFirst_filter_length (tupleSel s' u' d') _ _ a0 hq db.attendance hfind]
  exact hinv s' u' d'

/-! ### The claims -/

/-- C1: creating attendance twice for the same
`(session_id, user_id, attendance_date)` tuple — starting from a state
with at most one row carrying that tuple — results in exactly one
matching attendance record, whose status equals the status submitted by
the most recent create call; the second create updates status in place
(the attendance table does not grow). -/
theorem attendance_double_create_upsert
    (ca cb : Option Caller) (sid : Nat) (p1 p2 : AttendancePayload)
    (db0 db1 db2 : DB) (r1 r2 : AttendanceResponse)
    (huid : p1.user_id = p2.user_id) (hdate : p1.attendance_date = p2.attendance_date)
    (hinv : countTuple db0 sid p2.user_id p2.attendance_date ≤ 1)
    (h1 : mark_session_attendance ca sid p1 db0 = .ok (r1, db1))
    (h2 : mark_session_attendance cb sid p2 db1 = .ok (r2, db2)) :
    db2.attendance.filter (tupleSel sid p2.user_id p2.attendance_date) = [r2.record] ∧
    r2.record.status = p2.status ∧
    db2.attendance.length = db1.attendance.length := by
  obtain ⟨u1, he1⟩ := mark_ok_eq_upsert h1
  obtain ⟨u2, he2⟩ := mark_ok_eq_upsert h2
  have hd1 : db1 = (attendanceUpsert sid p1 u1 db0).2 := congrArg Prod.snd he1
  have hA := attendanceUpsert_filter sid p1 u1 db0 (by rw [huid, hdate]; exact hinv)
  have hcount1 : countTuple db1 sid p2.user_id p2.attendance_date = 1 := by
    unfold countTuple
    rw [hd1, ← huid, ← hdate, hA.1]
    rfl
  have hB := attendanceUpsert_filter sid p2 u2 db1 (le_of_eq hcount1)
  have hr2 : r2 = (attendanceUpsert sid p2 u2 db1).1 := congrArg Prod.fst he2
  have hd2 : db2 = (attendanceUpsert sid p2 u2 db1).2 := congrArg Prod.snd he2
  refine ⟨?_, ?_, ?_⟩
  · rw [hd2, hr2]; exact hB.1
  · rw [hr2]; exact hB.2
  · rw [hd2]
    exact attendanceUpsert_length_of_exists sid p2 u2 db1 (le_of_eq hcount1.symm)

/-- C1 witness: member 1 books session 1 for date 7 with status
"booked", then again with status "attended": exactly one matching row
remains, carrying status "attended". -/
theorem attendance_double_create_upsert_witness :
    c1db2.attendance.filter (tupleSel 1 1 7) = [c1r2.record] ∧
    c1r2.record.status = "attended" ∧
    c1db2.attendance.length = c1db1.attendance.length :=
  attendance_double_create_upsert (some exMember) (some exMember) 1 c1p1 c1p2
    exDb c1db1 c1db2 c1r1 c1r2 rfl rfl (by decide) rfl rfl

/-- C2 (amended): the uniqueness invariant is preserved by every
successful attendance create (upsert) and delete; an attendance update
preserves it when the submitted user_id and attendance_date equal the
stored record's. (An update that changes user_id or attendance_date is
not re-checked against the invariant and can break it — see the
counterexample.) -/
theorem attendance_inv_preserved (db : DB) (hinv : AttendanceInv db) :
    (∀ c? sid p r db', mark_session_attendance c? sid p db = .ok (r, db') →
        AttendanceInv db') ∧
    (∀ c? aid db', delete_session_attendance c? aid db = .ok db' →
        AttendanceInv db') ∧
    (∀ c? aid p r db' a0,
        db.attendance.find? (fun a => a.id == aid) = some a0 →
        p.user_id = a0.user_id → p.attendance_date = a0.attendance_date →
        update_session_attendance c? aid p db = .ok (r, db') →
        AttendanceInv db') := by
  refine ⟨?_, ?_, ?_⟩
  · intro c? sid p r db' h
    obtain ⟨u, he⟩ := mark_ok_eq_upsert h
    have hd : db' = (attendanceUpsert sid p u db).2 := congrArg Prod.snd he
    rw [hd]
    exact attendanceUpsert_inv sid p u db hinv
  · intro c? aid db' h
    have hd := delete_att_ok_shape h
    intro s' u' d'
    unfold countTuple
    rw [hd]
    exact le_trans (eraseP_filter_le _ _ _) (hinv s' u' d')
  · intro c? aid p r db' a0 hfind hpu hpd h
    obtain ⟨a1, hfind', hor⟩ := update_att_ok_shape h
    have ha : a1 = a0 := by rw [hfind] at hfind'; exact (Option.some.inj hfind').symm
    subst ha
    rcases hor with he | he
    · have hd : db' = (applyAttendanceUpdate aid p a1 db).2 := congrArg Prod.snd he
      rw [hd]
      exact applyAttendanceUpdate_inv aid p a1 db hfind' hpd hinv
    · have hrw : ({ a1 with user_id := p.user_id } : SessionAttendance) = a1 := by
        rw [hpu]
      rw [hrw] at he
      have hd : db' = (applyAttendanceUpdate aid p a1 db).2 := congrArg Prod.snd he
      rw [hd]
      exact applyAttendanceUpdate_inv aid p a1 db hfind' hpd hinv

/-- C2 witness: starting from the empty-attendance state, the member's
booking (a successful create) leaves a state still satisfying the
uniqueness invariant. -/
theorem attendance_inv_preserved_witness : AttendanceInv c1db1 :=
  (attendance_inv_preserved exDb (by intro s u d; simp [countTuple, exDb])).1
    (some exMember) 1 c1p1 c1r1 c1db1 rfl

/-- C2 counterexample: in a state satisfying the uniqueness invariant
(rows (session 1, user 1, date 5) and (session 1, user 2, date 5)), the
owning trainer's successful update reassigning row 2 to user 1 produces
two rows with the identical tuple (session 1, user 1, date 5): the
update operation does not preserve the invariant. -/
theorem attendance_inv_broken_by_update :
    AttendanceInv c2xDb ∧
    update_session_attendance (some c2xTrainer) 2 c2xPayload c2xDb = .ok (c2xR, c2xDb') ∧
    ¬ AttendanceInv c2xDb' := by
  refine ⟨?_, rfl, ?_⟩
  · intro s u d
    show (List.filter (tupleSel s u d)
      [{ id := 1, session_id := 1, user_id := 1, status := "booked", attendance_date := 5 },
       { id := 2, session_id := 1, user_id := 2, status := "booked", attendance_date := 5 }]).length ≤ 1
    by_cases h1 : tupleSel s u d
        { id := 1, session_id := 1, user_id := 1, status := "booked", attendance_date := 5 } = true <;>
      by_cases h2 : tupleSel s u d
        { id := 2, session_id := 1, user_id := 2, status := "booked", attendance_date := 5 } = true
    · exfalso
      simp only [tupleSel, Bool.and_eq_true, beq_iff_eq] at h1 h2
      omega
    · simp [List.filter, h1, h2]
    · simp [List.filter, h1, h2]
    · simp [List.filter, h1, h2]
  · intro h
    have hle := h 1 1 5
    have h2 : countTuple c2xDb' 1 1 5 = 2 := by decide
    rw [h2] at hle
    exact absurd hle (by decide)

/-- C3 (amended): for a trainer caller, session update and session
delete do not distinguish absence from ownership failure: when no
session with the given id is owned by the caller — whether the id is
absent altogether or the session belongs to another trainer — both
operations fail with NotFound (the lookup filters on id and trainer_id
at once), and the state is unchanged. -/
theorem session_update_delete_foreign_notfound
    (c : Caller) (sid : Nat) (p : SessionScheduleCreate) (db : DB)
    (hrole : c.role = "trainer")
    (hno : ∀ s ∈ db.sessions, s.id = sid → s.trainer_id ≠ c.id) :
    update_session (some c) sid p db = .error .notFound ∧
    delete_session (some c) sid db = .error .notFound := by
  have hfind : db.sessions.find? (ownSessionSel sid c.id) = none := by
    apply List.find?_eq_none.mpr
    intro s hs hsel
    simp only [ownSessionSel, Bool.and_eq_true, beq_iff_eq] at hsel
    exact hno s hs hsel.1 hsel.2
  constructor
  · unfold update_session
    simp [requireTrainer, requireUser, bind, Except.bind, hrole, hfind]
  · unfold delete_session
    simp [requireTrainer, requireUser, bind, Except.bind, hrole, hfind]

/-- C3 witness: trainer 3 updating/deleting session 1, which exists but
belongs to trainer 2, receives NotFound from both endpoints. -/
theorem session_update_delete_foreign_notfound_witness :
    update_session (some c3xCaller) 1 c3xPayload c3xDb = .error .notFound ∧
    delete_session (some c3xCaller) 1 c3xDb = .error .notFound :=
  session_update_delete_foreign_notfound c3xCaller 1 c3xPayload c3xDb rfl (by decide)

/-- C3 counterexample: session 1 exists in the state and its trainer_id
(2) differs from caller trainer 3's id, yet update and delete both
return NotFound, not Forbidden as the claim requires. -/
theorem session_update_foreign_not_forbidden :
    ({ id := 1, trainer_id := 2, session_name := "s", session_date := 1,
       start_time := 1, end_time := 2, branch_name := some "A",
       max_capacity := 10, description := "" } : SessionSchedule) ∈ c3xDb.sessions ∧
    (2 : Nat) ≠ c3xCaller.id ∧
    update_session (some c3xCaller) 1 c3xPayload c3xDb ≠ .error .forbidden ∧
    delete_session (some c3xCaller) 1 c3xDb ≠ .error .forbidden ∧
    update_session (some c3xCaller) 1 c3xPayload c3xDb = .error .notFound ∧
    delete_session (some c3xCaller) 1 c3xDb = .error .notFound := by
  refine ⟨by decide, by decide, ?_, ?_, rfl, rfl⟩
  · intro h
    rw [show update_session (some c3xCaller) 1 c3xPayload c3xDb =
        .error .notFound from rfl] at h
    exact absurd (Except.error.inj h) (by decide)
  · intro h
    rw [show delete_session (some c3xCaller) 1 c3xDb =
        .error .notFound from rfl] at h
    exact absurd (Except.error.inj h) (by decide)

/-- C4: a session created by a trainer carries the trainer's id and
branch, and a successful session update rewrites only session_name,
session_date, start_time, end_time, max_capacity and description:
id, trainer_id and branch_name of the stored session are unchanged
(and the owner remains the calling trainer). -/
theorem session_owner_branch_immutable (c : Caller) (db : DB) :
    (∀ p s db', create_session (some c) p db = .ok (s, db') →
        s.trainer_id = c.id ∧ s.branch_name = c.branch ∧
        db'.sessions = db.sessions ++ [s]) ∧
    (∀ sid p s' db2, update_session (some c) sid p db = .ok (s', db2) →
        ∃ s0, db.sessions.find? (ownSessionSel sid c.id) = some s0 ∧
          s'.id = s0.id ∧ s'.trainer_id = s0.trainer_id ∧
          s'.branch_name = s0.branch_name ∧ s'.trainer_id = c.id ∧
          s'.session_name = p.session_name ∧ s'.session_date = p.session_date ∧
          s'.start_time = p.start_time ∧ s'.end_time = p.end_time ∧
          s'.max_capacity = p.max_capacity ∧ s'.description = p.description ∧
          db2.sessions = replaceFirst (ownSessionSel sid c.id) s' db.sessions) := by
  constructor
  · intro p s db' h
    unfold create_session at h
    simp only [requireTrainer, requireUser, bind, Except.bind] at h
    split at h
    · exact absurd h (by simp)
    · rename_i cv heq
      split at heq
      · cases Except.ok.inj heq
        split at h
        · exact absurd h (by simp)
        · simp only [Except.ok.injEq, Prod.mk.injEq] at h
          obtain ⟨hs, hdb⟩ := h
          subst hs; subst hdb
          exact ⟨rfl, rfl, rfl⟩
      · exact absurd heq (by simp)
  · intro sid p s' db2 h
    unfold update_session at h
    simp only [requireTrainer, requireUser, bind, Except.bind] at h
    split at h
    · exact absurd h (by simp)
    · rename_i cv heq
      split at heq
      · cases Except.ok.inj heq
        split at h
        · exact absurd h (by simp)
        · rename_i s0 hfind
          simp only [Except.ok.injEq, Prod.mk.injEq] at h
          obtain ⟨hs, hdb⟩ := h
          subst hs; subst hdb
          have hown : s0.trainer_id = c.id := by
            have := List.find?_some hfind
            simp only [ownSessionSel, Bool.and_eq_true, beq_iff_eq] at this
            exact this.2
          exact ⟨s0, hfind, rfl, rfl, rfl, hown, rfl, rfl, rfl, rfl, rfl, rfl, rfl⟩
      · exact absurd heq (by simp)

/-- C4 witness: trainer 10 (branch A) creates session 1 and then updates
it; the created row carries trainer 10 / branch A, and the updated row
keeps id, trainer_id and branch_name while the six payload fields take
the new values. -/
theorem session_owner_branch_immutable_witness :
    (c4xS.trainer_id = c4xTrainer.id ∧ c4xS.branch_name = c4xTrainer.branch ∧
      c4xDb1.sessions = c4xDb.sessions ++ [c4xS]) ∧
    (∃ s0, c4xDb1.sessions.find? (ownSessionSel 1 c4xTrainer.id) = some s0 ∧
      c4xS2.id = s0.id ∧ c4xS2.trainer_id = s0.trainer_id ∧
      c4xS2.branch_name = s0.branch_name ∧ c4xS2.trainer_id = c4xTrainer.id ∧
      c4xS2.session_name = c4xP2.session_name ∧
      c4xS2.session_date = c4xP2.session_date ∧
      c4xS2.start_time = c4xP2.start_time ∧ c4xS2.end_time = c4xP2.end_time ∧
      c4xS2.max_capacity = c4xP2.max_capacity ∧
      c4xS2.description = c4xP2.description ∧
      c4xDb2.sessions = replaceFirst (ownSessionSel 1 c4xTrainer.id) c4xS2 c4xDb1.sessions) :=
  ⟨(session_owner_branch_immutable c4xTrainer c4xDb).1 c4xP1 c4xS c4xDb1 rfl,
   (session_owner_branch_immutable c4xTrainer c4xDb1).2 1 c4xP2 c4xS2 c4xDb2 rfl⟩

/-- C5: a non-trainer caller cannot create an attendance record for an
existing session with a user_id other than their own, cannot update an
attendance record whose user_id is not theirs (nor submit a changed
user_id), and cannot delete an attendance record whose user_id is not
theirs: each attempt fails with Forbidden before any state change. -/
theorem member_attendance_foreign_forbidden (c : Caller) (db : DB)
    (hrole : c.role ≠ "trainer") :
    (∀ sid p, (∃ s ∈ db.sessions, s.id = sid) → p.user_id ≠ c.id →
        mark_session_attendance (some c) sid p db = .error .forbidden) ∧
    (∀ aid p a0, db.attendance.find? (fun a => a.id == aid) = some a0 →
        a0.user_id ≠ c.id ∨ p.user_id ≠ c.id →
        update_session_attendance (some c) aid p db = .error .forbidden) ∧
    (∀ aid a0, db.attendance.find? (fun a => a.id == aid) = some a0 →
        a0.user_id ≠ c.id →
        delete_session_attendance (some c) aid db = .error .forbidden) := by
  refine ⟨?_, ?_, ?_⟩
  · intro sid p hsess hpu
    obtain ⟨s, hs⟩ := find?_some_of_exists (fun s => s.id == sid) db.sessions
      (by obtain ⟨s, hsm, hid⟩ := hsess; exact ⟨s, hsm, by simp [hid]⟩)
    unfold mark_session_attendance
    simp only [requireUser, bind, Except.bind]
    rw [hs]
    simp [hrole, hpu]
  · intro aid p a0 hfind hcase
    unfold update_session_attendance
    simp only [requireUser, bind, Except.bind]
    rw [hfind]
    rcases hcase with hc | hc
    · simp [hrole, hc]
    · by_cases h0 : a0.user_id = c.id
      · simp [hrole, h0, hc]
      · simp [hrole, h0]
  · intro aid a0 hfind hne
    unfold delete_session_attendance
    simp only [requireUser, bind, Except.bind]
    rw [hfind]
    simp [hrole, hne]

/-- C5 witness: member 9 trying to book session 1 for user 1, to update
attendance row 1 (user 1), and to delete attendance row 1, is rejected
with Forbidden each time. -/
theorem member_attendance_foreign_forbidden_witness :
    mark_session_attendance (some c5xCaller) 1 c5xPayload c2xDb = .error .forbidden ∧
    update_session_attendance (some c5xCaller) 1 c5xPayload c2xDb = .error .forbidden ∧
    delete_session_attendance (some c5xCaller) 1 c2xDb = .error .forbidden :=
  ⟨(member_attendance_foreign_forbidden c5xCaller c2xDb (by decide)).1 1 c5xPayload
      (by decide) (by decide),
   (member_attendance_foreign_forbidden c5xCaller c2xDb (by decide)).2.1 1 c5xPayload
      { id := 1, session_id := 1, user_id := 1, status := "booked", attendance_date := 5 }
      (by decide) (Or.inl (by decide)),
   (member_attendance_foreign_forbidden c5xCaller c2xDb (by decide)).2.2 1
      { id := 1, session_id := 1, user_id := 1, status := "booked", attendance_date := 5 }
      (by decide) (by decide)⟩

/-- C6 (amended): for a trainer caller and a DietPlan/ExercisePlan that
the lookup `id = plan_id AND assigned_by_trainer_id = caller.id AND
branch_name = caller.branch` finds, an update payload carrying a user_id
different from the stored plan's user_id is rejected with InvalidState
(HTTP 400) before any field is written; if the plan's branch_name
differs from the caller's current branch the lookup fails and the update
is rejected with NotFound instead. -/
theorem plan_update_user_change_rejected (c : Caller) (db : DB)
    (hrole : c.role = "trainer") :
    (∀ pid p pl, db.diet_plans.find? (ownPlanSel pid c) = some pl →
        p.user_id ≠ pl.user_id →
        update_diet_plan (some c) pid p db = .error .badRequest) ∧
    (∀ pid p pl, db.exercise_plans.find? (ownPlanSel pid c) = some pl →
        p.user_id ≠ pl.user_id →
        update_exercise_plan (some c) pid p db = .error .badRequest) ∧
    (∀ pid p, db.diet_plans.find? (ownPlanSel pid c) = none →
        update_diet_plan (some c) pid p db = .error .notFound) ∧
    (∀ pid p, db.exercise_plans.find? (ownPlanSel pid c) = none →
        update_exercise_plan (some c) pid p db = .error .notFound) := by
  refine ⟨?_, ?_, ?_, ?_⟩
  · intro pid p pl hfind hneq
    unfold update_diet_plan
    simp only [requireTrainer, requireUser, bind, Except.bind, hrole, if_pos]
    rw [hfind]
    simp [hneq]
  · intro pid p pl hfind hneq
    unfold update_exercise_plan
    simp only [requireTrainer, requireUser, bind, Except.bind, hrole, if_pos]
    rw [hfind]
    simp [hneq]
  · intro pid p hfind
    unfold update_diet_plan
    simp only [requireTrainer, requireUser, bind, Except.bind, hrole, if_pos]
    rw [hfind]
  · intro pid p hfind
    unfold update_exercise_plan
    simp only [requireTrainer, requireUser, bind, Except.bind, hrole, if_pos]
    rw [hfind]

/-- C6 witness: trainer 1 (branch A) updating their own plan 1 with a
payload that moves it to user 99 is rejected with the 400 InvalidState
error, for both the diet and the exercise variant. -/
theorem plan_update_user_change_rejected_witness :
    update_diet_plan (some c6wCaller) 1 c6xPayload c6xDb = .error .badRequest ∧
    update_exercise_plan (some c6wCaller) 1 c6xPayload c6xDb = .error .badRequest :=
  ⟨(plan_update_user_change_rejected c6wCaller c6xDb rfl).1 1 c6xPayload c6xPlan
      (by decide) (by decide),
   (plan_update_user_change_rejected c6wCaller c6xDb rfl).2.1 1 c6xPayload c6xPlan
      (by decide) (by decide)⟩

/-- C6 counterexample: plan 1 is owned by trainer 1 (it was assigned
under branch A), the payload changes the user_id, but because the
caller's current branch is B the update returns NotFound, not the
InvalidState error the claim requires. -/
theorem plan_update_foreign_branch_not_invalidstate :
    c6xPlan ∈ c6xDb.diet_plans ∧
    c6xPlan.assigned_by_trainer_id = c6xCaller.id ∧
    c6xPayload.user_id ≠ c6xPlan.user_id ∧
    update_diet_plan (some c6xCaller) 1 c6xPayload c6xDb = .error .notFound ∧
    update_exercise_plan (some c6xCaller) 1 c6xPayload c6xDb = .error .notFound := by
  exact ⟨by decide, rfl, by decide, rfl, rfl⟩

/-- C7 (amended): listing trainers scopes by Python truthiness of the
branch: an admin with a non-empty branch gets exactly the trainers of
that branch; a superadmin gets all trainers; any other caller with a
non-empty branch gets exactly the trainers of their own branch; an admin
whose branch is null or the empty string gets a 400 error and no trainer
data. -/
theorem trainers_list_scope (c : Caller) (db : DB) :
    (∀ b, c.role = "admin" → c.branch = some b → b ≠ "" →
        get_trainers (some c) db =
          .ok ((db.trainers.filter (fun t => t.branch_name == some b)).map trainerToResponse)) ∧
    (c.role = "superadmin" →
        get_trainers (some c) db = .ok (db.trainers.map trainerToResponse)) ∧
    (∀ b, c.role ≠ "admin" → c.role ≠ "superadmin" → c.branch = some b → b ≠ "" →
        get_trainers (some c) db =
          .ok ((db.trainers.filter (fun t => t.branch_name == some b)).map trainerToResponse)) ∧
    (c.role = "admin" → c.branch = none ∨ c.branch = some "" →
        get_trainers (some c) db = .error .badRequest) := by
  refine ⟨?_, ?_, ?_, ?_⟩
  · intro b hrole hbr hb
    unfold get_trainers
    simp only [requireUser, bind, Except.bind]
    simp [hrole, hbr, truthyStr, hb]
  · intro hrole
    unfold get_trainers
    simp only [requireUser, bind, Except.bind]
    simp [hrole]
  · intro b h1 h2 hbr hb
    unfold get_trainers
    simp only [requireUser, bind, Except.bind]
    simp [h1, h2, hbr, truthyStr, hb]
  · intro hrole hbr
    unfold get_trainers
    simp only [requireUser, bind, Except.bind]
    rcases hbr with hbr | hbr <;> simp [hrole, hbr, truthyStr]

/-- C7 witness: over a store with one branch-A trainer — admin of branch
A sees the branch-A filter, superadmin sees all, member of branch A sees
the branch-A filter, and the admin with empty-string branch gets the 400
error. -/
theorem trainers_list_scope_witness :
    get_trainers (some c7wAdmin) c7xDb =
      .ok ((c7xDb.trainers.filter (fun t => t.branch_name == some "A")).map trainerToResponse) ∧
    get_trainers (some c7wSuper) c7xDb = .ok (c7xDb.trainers.map trainerToResponse) ∧
    get_trainers (some c7wMember) c7xDb =
      .ok ((c7xDb.trainers.filter (fun t => t.branch_name == some "A")).map trainerToResponse) ∧
    get_trainers (some c7xAdmin) c7xDb = .error .badRequest :=
  ⟨(trainers_list_scope c7wAdmin c7xDb).1 "A" rfl rfl (by decide),
   (trainers_list_scope c7wSuper c7xDb).2.1 rfl,
   (trainers_list_scope c7wMember c7xDb).2.2.1 "A" (by decide) (by decide) rfl (by decide),
   (trainers_list_scope c7xAdmin c7xDb).2.2.2 rfl (Or.inr rfl)⟩

/-- C7 counterexample: an admin whose branch is the empty string — a
non-null branch — receives the 400 error instead of the trainers whose
branch_name equals their branch, refuting the claim's null/non-null
dichotomy. -/
theorem trainers_list_admin_empty_branch_errors :
    c7xAdmin.branch ≠ none ∧
    get_trainers (some c7xAdmin) c7xDb = .error .badRequest ∧
    get_trainers (some c7xAdmin) c7xDb ≠
      .ok ((c7xDb.trainers.filter (fun t => t.branch_name == c7xAdmin.branch)).map trainerToResponse) := by
  refine ⟨by decide, rfl, ?_⟩
  intro h
  rw [show get_trainers (some c7xAdmin) c7xDb = .error .badRequest from rfl] at h
  exact Except.noConfusion h

theorem find?_append_none (p : α → Bool) :
    ∀ l1 l2 : List α, l1.find? p = none → (l1 ++ l2).find? p = l2.find? p := by
  intro l1 l2
  induction l1 with
  | nil => intro _; rfl
  | cons a t ih =>
    intro h
    have hpa : p a = false := by
      by_cases hp : p a = true
      · exact absurd (List.find?_eq_none.mp h a (List.mem_cons_self a t)) (by simp [hp])
      · simpa using hp
    have ht : t.find? p = none := by
      simpa [List.find?, hpa] using h
    simp [List.find?, hpa, ih ht]

theorem get_by_id_of_trainers_eq (c? : Option Caller) (db2 : DB) (tid : Nat)
    (l1 : List Trainer) (nt : Trainer)
    (h : db2.trainers = l1 ++ [nt])
    (h1 : l1.find? (fun t => t.id == tid) = none)
    (h2 : nt.id = tid) :
    get_trainer_by_id c? tid db2 = .ok (trainerToResponse nt) := by
  unfold get_trainer_by_id
  rw [h, find?_append_none _ _ _ h1]
  simp [List.find?, h2]

/-- C8: the specialization string of every trainer response is the
stored delimited string split on "," when non-empty and the empty list
when empty or absent; consequently a specialization list of non-empty,
comma-free strings survives the round trip through trainer creation
(joined with ",") and read-back. -/
theorem trainer_specialization_roundtrip
    (c : Caller) (hash : String → String) (p : TrainerCreate) (db : DB)
    (anyC : Option Caller)
    (hrole : c.role = "admin" ∨ c.role = "superadmin")
    (hemail : db.trainers.find? (fun t => t.email == p.email) = none)
    (hfresh : ∀ t ∈ db.trainers, t.id ≠ db.next_trainer_id)
    (hspec : ∀ x ∈ p.specialization, x ≠ "" ∧ ',' ∉ x.data) :
    (∀ t : Trainer, (trainerToResponse t).specialization =
        normalizeSpecialization t.specialization) ∧
    normalizeSpecialization none = [] ∧
    normalizeSpecialization (some "") = [] ∧
    (∀ s : String, s ≠ "" →
        normalizeSpecialization (some s) = (splitCommaList s.data).map String.mk) ∧
    (∃ resp db', add_trainer (some c) hash p db = .ok (resp, db') ∧
        resp.specialization = p.specialization ∧
        ∃ r, get_trainer_by_id anyC db.next_trainer_id db' = .ok r ∧
          r.specialization = p.specialization) := by
  refine ⟨fun t => rfl, rfl, rfl, ?_, ?_⟩
  · intro s hs
    exact normalize_some_ne s (fun hd => hs ((data_eq_nil_iff s).mp hd))
  · have hadd : add_trainer (some c) hash p db = .ok
        (newTrainerResponse c p db.next_trainer_id,
         { db with
           trainers := db.trainers ++ [newTrainerRow c hash p db.next_trainer_id]
           next_trainer_id := db.next_trainer_id + 1 }) := by
      unfold add_trainer
      simp only [requireAdminOrSuperadmin, requireUser, bind, Except.bind]
      rw [if_pos hrole]
      show (match db.trainers.find? (fun t => t.email == p.email) with
            | some _ => Except.error ApiError.badRequest
            | none => _) = _
      rw [hemail]
    have hfind0 : db.trainers.find? (fun t => t.id == db.next_trainer_id) = none := by
      apply List.find?_eq_none.mpr
      intro t ht
      simp only [beq_iff_eq]
      exact hfresh t ht
    have hget : get_trainer_by_id anyC db.next_trainer_id
        { db with
          trainers := db.trainers ++ [newTrainerRow c hash p db.next_trainer_id]
          next_trainer_id := db.next_trainer_id + 1 } =
        .ok (trainerToResponse (newTrainerRow c hash p db.next_trainer_id)) :=
      get_by_id_of_trainers_eq anyC _ db.next_trainer_id db.trainers _ rfl hfind0 rfl
    have hnorm : (trainerToResponse (newTrainerRow c hash p db.next_trainer_id)).specialization
        = p.specialization := by
      show normalizeSpecialization (some (joinComma p.specialization)) = p.specialization
      exact normalize_join p.specialization hspec
    exact ⟨_, _, hadd, rfl, _, hget, hnorm⟩

/-- C8 witness: the superadmin stores specialization ["yoga", "cardio"]
for a fresh trainer; reading the trainer back returns exactly
["yoga", "cardio"]. -/
theorem trainer_specialization_roundtrip_witness :
    normalizeSpecialization (some "") = [] ∧
    (∃ resp db', add_trainer (some c8xAdmin) (fun s => s) c8xPayload c8xDb = .ok (resp, db') ∧
        resp.specialization = c8xPayload.specialization ∧
        ∃ r, get_trainer_by_id none c8xDb.next_trainer_id db' = .ok r ∧
          r.specialization = c8xPayload.specialization) :=
  ⟨(trainer_specialization_roundtrip c8xAdmin (fun s => s) c8xPayload c8xDb none
      (Or.inr rfl) rfl (by decide) (by decide)).2.2.1,
   (trainer_specialization_roundtrip c8xAdmin (fun s => s) c8xPayload c8xDb none
      (Or.inr rfl) rfl (by decide) (by decide)).2.2.2.2⟩

/-- C9: trainer read-by-id, update and delete consult no caller context:
any two callers (or no caller) get identical results, the only error any
of them can produce is NotFound, and on an existing trainer id the read
succeeds, the update overwrites every stored field with the payload
(password re-hashed, branch_name included, id kept), and the delete
removes the row with that id. -/
theorem trainer_crud_caller_blind
    (db : DB) (hash : String → String) (tid : Nat) (p : TrainerCreate) :
    (∀ ca cb : Option Caller,
        get_trainer_by_id ca tid db = get_trainer_by_id cb tid db ∧
        update_trainer ca hash tid p db = update_trainer cb hash tid p db ∧
        delete_trainer ca tid db = delete_trainer cb tid db) ∧
    (∀ c? e, get_trainer_by_id c? tid db = .error e → e = .notFound) ∧
    (∀ c? e, update_trainer c? hash tid p db = .error e → e = .notFound) ∧
    (∀ c? e, delete_trainer c? tid db = .error e → e = .notFound) ∧
    (∀ t0, db.trainers.find? (fun t => t.id == tid) = some t0 →
        get_trainer_by_id none tid db = .ok (trainerToResponse t0) ∧
        update_trainer none hash tid p db = .ok
          (trainerUpdateResponse p (applyTrainerUpdate hash p t0),
           { db with trainers := replaceFirst (fun t => t.id == tid) (applyTrainerUpdate hash p t0) db.trainers }) ∧
        (applyTrainerUpdate hash p t0).id = t0.id ∧
        (applyTrainerUpdate hash p t0).name = p.name ∧
        (applyTrainerUpdate hash p t0).specialization = some (joinComma p.specialization) ∧
        (applyTrainerUpdate hash p t0).rating = p.rating ∧
        (applyTrainerUpdate hash p t0).experience = p.experience ∧
        (applyTrainerUpdate hash p t0).phone = p.phone ∧
        (applyTrainerUpdate hash p t0).email = p.email ∧
        (applyTrainerUpdate hash p t0).password = hash p.password ∧
        (applyTrainerUpdate hash p t0).availability = p.availability ∧
        (applyTrainerUpdate hash p t0).branch_name = p.branch_name ∧
        delete_trainer none tid db = .ok
          { db with trainers := db.trainers.eraseP (fun t => t.id == tid) } ∧
        ((db.trainers.eraseP (fun t => t.id == tid)).filter
            (fun t => t.id == tid)).length + 1
          = (db.trainers.filter (fun t => t.id == tid)).length) := by
  refine ⟨fun ca cb => ⟨rfl, rfl, rfl⟩, ?_, ?_, ?_, ?_⟩
  · intro c? e h
    unfold get_trainer_by_id at h
    rcases hf : db.trainers.find? (fun t => t.id == tid) with _ | t <;> rw [hf] at h
    · exact (Except.error.inj h).symm
    · exact absurd h (by simp)
  · intro c? e h
    unfold update_trainer at h
    rcases hf : db.trainers.find? (fun t => t.id == tid) with _ | t <;> rw [hf] at h
    · exact (Except.error.inj h).symm
    · exact absurd h (by simp)
  · intro c? e h
    unfold delete_trainer at h
    rcases hf : db.trainers.find? (fun t => t.id == tid) with _ | t <;> rw [hf] at h
    · exact (Except.error.inj h).symm
    · exact absurd h (by simp)
  · intro t0 hfind
    refine ⟨?_, ?_, rfl, rfl, rfl, rfl, rfl, rfl, rfl, rfl, rfl, rfl, ?_, ?_⟩
    · unfold get_trainer_by_id
      rw [hfind]
    · unfold update_trainer
      rw [hfind]
    · unfold delete_trainer
      rw [hfind]
    · exact eraseP_filter_count (fun t => t.id == tid) db.trainers hfind

/-- C9 witness: on a store holding trainer 1, an admin caller and an
absent caller context receive identical results from read-by-id, the
read succeeds, and the caller-free delete removes the row. -/
theorem trainer_crud_caller_blind_witness :
    get_trainer_by_id (some c7wAdmin) 1 c7xDb = get_trainer_by_id none 1 c7xDb ∧
    get_trainer_by_id none 1 c7xDb = .ok (trainerToResponse c7xTrainerRow) ∧
    delete_trainer none 1 c7xDb = .ok
      { c7xDb with trainers := c7xDb.trainers.eraseP (fun t => t.id == 1) } :=
  ⟨((trainer_crud_caller_blind c7xDb (fun s => s) 1 c8xPayload).1 (some c7wAdmin) none).1,
   ((trainer_crud_caller_blind c7xDb (fun s => s) 1 c8xPayload).2.2.2.2 c7xTrainerRow rfl).1,
   ((trainer_crud_caller_blind c7xDb (fun s => s) 1 c8xPayload).2.2.2.2 c7xTrainerRow
       rfl).2.2.2.2.2.2.2.2.2.2.2.2.1⟩

/-- C10: a non-trainer caller booking under their own user id, for any
existing session and with their user row present, always succeeds —
no comparison of the caller's branch with the session's branch_name
takes place, and the outcome is entirely independent of the caller's
branch. -/
theorem member_books_cross_branch
    (c : Caller) (sid : Nat) (p : AttendancePayload) (db : DB)
    (hrole : c.role ≠ "trainer") (hid : p.user_id = c.id)
    (hsess : ∃ s ∈ db.sessions, s.id = sid)
    (huser : ∃ u ∈ db.users, u.id = c.id) :
    (∃ r db', mark_session_attendance (some c) sid p db = .ok (r, db')) ∧
    (∀ b1 b2 : Option String,
        mark_session_attendance (some { c with branch := b1 }) sid p db =
        mark_session_attendance (some { c with branch := b2 }) sid p db) := by
  constructor
  · obtain ⟨s, hs⟩ := find?_some_of_exists (fun s => s.id == sid) db.sessions
      (by obtain ⟨s, hsm, hid'⟩ := hsess; exact ⟨s, hsm, by simp [hid']⟩)
    obtain ⟨u, hu⟩ := find?_some_of_exists (fun u => u.id == c.id) db.users
      (by obtain ⟨u, hum, hid'⟩ := huser; exact ⟨u, hum, by simp [hid']⟩)
    refine ⟨(attendanceUpsert sid p u db).1, (attendanceUpsert sid p u db).2, ?_⟩
    unfold mark_session_attendance
    simp only [requireUser, bind, Except.bind]
    rw [hs]
    simp [hrole, hid, hu]
  · intro b1 b2
    unfold mark_session_attendance
    simp only [requireUser, bind, Except.bind]
    rcases hf : db.sessions.find? (fun s => s.id == sid) with _ | s
    · rw [hf]
    · rw [hf]
      simp [hrole, hid]

/-- C10 witness: member 7 of branch Y books the branch-X session 1 under
their own id: the call succeeds, and its outcome does not change if the
member's branch is Y or Z. -/
theorem member_books_cross_branch_witness :
    (∃ r db', mark_session_attendance (some c10xCaller) 1 c10xP c10xDb = .ok (r, db')) ∧
    mark_session_attendance (some { c10xCaller with branch := some "Y" }) 1 c10xP c10xDb =
      mark_session_attendance (some { c10xCaller with branch := some "Z" }) 1 c10xP c10xDb :=
  ⟨(member_books_cross_branch c10xCaller 1 c10xP c10xDb (by decide) rfl
      (by decide) (by decide)).1,
   (member_books_cross_branch c10xCaller 1 c10xP c10xDb (by decide) rfl
      (by decide) (by decide)).2 (some "Y") (some "Z")⟩

end Gym
